import Mathlib

/-
Shallow embedding of `src/electron-app/main.js` (the Electron main process of
the intervals-body-tracking / light-grid export pipeline).

The module-level mutable globals `tempDir` and `frameCount` together with an
abstract file system (files as an association list from path to content, plus
a list of existing directories) form the state `St`.  Each IPC handler
(`export:init`, `export:saveFrameBatch`, `export:saveFrame`,
`export:saveAudio`, `export:finalize`, `export:cancel`) becomes a function of
that state.  External effects (the save dialog, the encoder subprocesses, the
locator's spawnSync probe) are supplied as oracles in `FinEnv`; the observable
actions of `finalize` (subprocess spawns, progress events, cleanup calls) are
recorded in an event log.
-/

namespace MainJS

/-- File system contents: most recent write of a path is the first entry. -/
abbrev Files := List (String × String)

/-- Models `fs.existsSync` for regular files. -/
def diskExists (fs : Files) (p : String) : Bool :=
  fs.any (fun e => e.1 == p)

/-- Reads the current content of a path (latest write wins). -/
def diskRead (fs : Files) (p : String) : Option String :=
  (fs.find? (fun e => e.1 == p)).map (fun e => e.2)

/-- Models `fs.statSync(p).size` (only called after an existence check). -/
def diskSize (fs : Files) (p : String) : Nat :=
  match diskRead fs p with
  | some c => c.length
  | none => 0

/-- Models `fs.unlinkSync` (with errors ignored, as in the source's try/catch). -/
def diskRemove (fs : Files) (p : String) : Files :=
  fs.filter (fun e => e.1 != p)

/-- Models `fs.renameSync src dst`: the destination gets the source's bytes. -/
def diskRename (fs : Files) (src dst : String) : Files :=
  match diskRead fs src with
  | some c => (dst, c) :: fs.filter (fun e => e.1 != src && e.1 != dst)
  | none => fs

/-- True when path `p` lies inside directory `d`. -/
def isUnder (d p : String) : Bool :=
  (d ++ "/").data.isPrefixOf p.data

/-- Models the `.endsWith('.png')` filter applied to directory entries. -/
def endsWithPng (p : String) : Bool :=
  ".png".data.isSuffixOf p.data

/-- Models `String(n).padStart(6, '0')` from the frame-filename construction. -/
def pad6 (n : Nat) : String :=
  let s := toString n
  if s.length < 6 then String.mk (List.replicate (6 - s.length) '0') ++ s else s

/-- Path of frame number `n` inside workspace `d`: `frame_NNNNNN.png`. -/
def framePath (d : String) (n : Nat) : String :=
  d ++ "/frame_" ++ pad6 n ++ ".png"

/-- Models `dataUrl.replace(/^data:image\/png;base64,/, '')`. -/
def stripDataUrl (s : String) : String :=
  if "data:image/png;base64,".data.isPrefixOf s.data
  then s.drop ("data:image/png;base64,".length)
  else s

/-- Process-wide state: the globals `tempDir` and `frameCount` of main.js
plus the file system they act on. -/
structure St where
  tempDir : Option String
  frameCount : Nat
  files : Files
  dirs : List String
deriving Repr

/-- Models the `cleanup()` function: recursively remove the workspace if it
exists (ignoring errors), then reset `tempDir` and `frameCount`. -/
def cleanup (s : St) : St :=
  let s1 :=
    match s.tempDir with
    | some d =>
        if s.dirs.contains d then
          { s with files := s.files.filter (fun e => !isUnder d e.1),
                   dirs := s.dirs.filter (fun x => x != d) }
        else s
    | none => s
  { s1 with tempDir := none, frameCount := 0 }

/-- Models `fs.readdirSync(dir).filter(f => f.endsWith('.png'))`. -/
def listPng (fs : Files) (d : String) : List String :=
  ((fs.map (fun e => e.1)).filter (fun p => isUnder d p && endsWithPng p)).dedup

/-- The possible shapes of a value resolved by one of the IPC handlers.
`thrown` models a rejected handler promise (an exception crossing the IPC
boundary) as opposed to a returned `{error: ...}` object. -/
inductive OpResult where
  | initialized (tempDir : String)
  | frameNumber (n : Nat)
  | audioSaved (audioPath : String)
  | success (outputPath : String) (fileSize : Nat)
  | canceled
  | error (msg : String)
  | thrown (msg : String)
deriving DecidableEq, Repr

/-- Models the `export:init` handler: fresh workspace, counter reset. -/
def exportInit (dirName : String) (s : St) : St × OpResult :=
  ({ tempDir := some dirName, frameCount := 0,
     files := s.files, dirs := dirName :: s.dirs },
   OpResult.initialized dirName)

/-- Models the `export:saveFrameBatch` handler.  `writeOk i` tells whether the
asynchronous `fs.writeFile` of the i-th payload succeeds.  All writes are
started concurrently, so every successful write lands on disk; the counter
advances and a frame number is returned only when `Promise.all` resolves,
i.e. when every write succeeded.  A rejection propagates out of the handler
(`thrown`), as the source has no try/catch around the await. -/
def saveFrameBatch (frames : List String) (writeOk : Nat → Bool) (s : St) :
    St × OpResult :=
  match s.tempDir with
  | none => (s, OpResult.error "Export not initialized")
  | some d =>
      let written := ((List.range frames.length).filter writeOk).map
        (fun i => (framePath d (s.frameCount + i), stripDataUrl (frames.getD i "")))
      let files' := written ++ s.files
      if (List.range frames.length).all writeOk then
        ({ s with files := files', frameCount := s.frameCount + frames.length },
         OpResult.frameNumber (s.frameCount + frames.length))
      else
        ({ s with files := files' }, OpResult.thrown "frame write failed")

/-- Models the legacy `export:saveFrame` handler (single sequential write). -/
def saveFrame (dataUrl : String) (s : St) : St × OpResult :=
  match s.tempDir with
  | none => (s, OpResult.error "Export not initialized")
  | some d =>
      ({ s with files := (framePath d s.frameCount, stripDataUrl dataUrl) :: s.files,
                frameCount := s.frameCount + 1 },
       OpResult.frameNumber (s.frameCount + 1))

/-- Models the `export:saveAudio` handler: one fixed-named file. -/
def saveAudio (buf : String) (s : St) : St × OpResult :=
  match s.tempDir with
  | none => (s, OpResult.error "Export not initialized")
  | some d =>
      ({ s with files := (d ++ "/audio.webm", buf) :: s.files },
       (OpResult.audioSaved (d ++ "/audio.webm")))

/-- Models the `export:cancel` handler: unconditionally cleanup, then return
a canceled result (there is no not-initialized guard in this handler). -/
def cancel (s : St) : St × OpResult :=
  (cleanup s, OpResult.canceled)

/-- Digit class of the regex `\d`. -/
def jsDigit (c : Char) : Bool :=
  '0' ≤ c && c ≤ '9'

/-- Whitespace class of the regex `\s` (ASCII part). -/
def jsSpace (c : Char) : Bool :=
  c == ' ' || c == '\t' || c == '\n' || c == '\r' || c == '\x0b' || c == '\x0c'

/-- Tries to match `frame=\s*(\d+)` at the head of the character list,
returning the captured digits and the remainder after the match. -/
def matchAt : List Char → Option (List Char × List Char)
  | 'f' :: 'r' :: 'a' :: 'm' :: 'e' :: '=' :: rest =>
      let afterSpaces := rest.dropWhile jsSpace
      let digits := afterSpaces.takeWhile jsDigit
      if digits.isEmpty then none
      else some (digits, afterSpaces.dropWhile jsDigit)
  | _ => none

/-- Fuelled scan for all non-overlapping matches of `frame=\s*(\d+)`,
left to right, as `String.prototype.match` with the `g` flag produces. -/
def matchFramesFuel : Nat → List Char → List String
  | 0, _ => []
  | _ + 1, [] => []
  | fuel + 1, c :: cs =>
      match matchAt (c :: cs) with
      | some (digits, rest) => String.mk digits :: matchFramesFuel fuel rest
      | none => matchFramesFuel fuel cs

/-- All captured digit groups of `stderr.match(/frame=\s*(\d+)/g)`. -/
def matchFrames (s : String) : List String :=
  matchFramesFuel s.data.length s.data

/-- Models `parseInt` applied to a string of decimal digits. -/
def parseNat (s : String) : Nat :=
  s.data.foldl (fun n c => n * 10 + (c.toNat - '0'.toNat)) 0

/-- State of the stderr progress scanner: the accumulated `stderr` string,
the `lastProgress` dedup register, and the digit strings emitted so far. -/
structure PState where
  stderrAcc : String
  lastProgress : String
  emitted : List String
deriving Repr

/-- One `ffmpeg.stderr.on('data')` callback invocation: append the chunk,
rescan the whole accumulated text, and emit the digits of the last match
when they differ from the previously reported value. -/
def stepChunk (acc : PState) (chunk : String) : PState :=
  let stderr := acc.stderrAcc ++ chunk
  match (matchFrames stderr).getLast? with
  | none => { acc with stderrAcc := stderr }
  | some last =>
      if last ≠ acc.lastProgress then
        { stderrAcc := stderr, lastProgress := last,
          emitted := acc.emitted ++ [last] }
      else
        { acc with stderrAcc := stderr }

/-- The digit strings emitted as progress over a whole sequence of stderr
chunks, in order of emission. -/
def runProgressStrs (chunks : List String) : List String :=
  (chunks.foldl stepChunk ⟨"", "", []⟩).emitted

/-- The `{frame, total}` progress payloads sent to the renderer:
`frame` is `parseInt` of the emitted digits, `total` is the frame file count. -/
def runProgress (chunks : List String) (total : Nat) : List (Nat × Nat) :=
  (runProgressStrs chunks).map (fun str => (parseNat str, total))

/-- The fixed ordered candidate list of `findFFmpeg`. -/
def possiblePaths : List String :=
  ["/opt/homebrew/bin/ffmpeg", "/usr/local/bin/ffmpeg", "/usr/bin/ffmpeg", "ffmpeg"]

/-- The loop body of `findFFmpeg`: `spawnSync exe args timeoutMs` is the
oracle for `child_process.spawnSync(p, ['-version'], {timeout: 5000})`,
returning the exit status, or `none` when the call throws. -/
def findFFmpegAux (spawnSync : String → List String → Nat → Option Int) :
    List String → Option String
  | [] => none
  | p :: rest =>
      if spawnSync p ["-version"] 5000 = some 0 then some p
      else findFFmpegAux spawnSync rest

/-- Models `findFFmpeg()`: probe the fixed candidate list in order with a
5-second-bounded `-version` check, returning the first success. -/
def findFFmpeg (spawnSync : String → List String → Nat → Option Int) :
    Option String :=
  findFFmpegAux spawnSync possiblePaths

/-- The installation-guidance error message of the encoder-not-found path. -/
def ffmpegNotFoundMsg : String :=
  "FFmpeg not found. Please install FFmpeg:\n\nbrew install ffmpeg\n\nor download from https://ffmpeg.org"

/-- Observable actions of one `finalize` call. -/
inductive Ev where
  | cleanupEv
  | spawnEv (exe : String) (args : List String)
  | progressEv (frame : Nat) (total : Nat)
deriving DecidableEq, Repr

/-- Recognises the cleanup event. -/
def isCleanupEv : Ev → Bool
  | Ev.cleanupEv => true
  | _ => false

/-- Recognises a subprocess spawn event. -/
def isSpawnEv : Ev → Bool
  | Ev.spawnEv _ _ => true
  | _ => false

/-- Number of `cleanup()` calls recorded in an event log. -/
def countCleanups (l : List Ev) : Nat :=
  (l.filter isCleanupEv).length

/-- Number of subprocesses spawned, as recorded in an event log. -/
def countSpawns (l : List Ev) : Nat :=
  (l.filter isSpawnEv).length

/-- Video flags of the ProRes branch of the primary encode command. -/
def proresVideoArgs : List String :=
  ["-c:v", "prores_ks", "-profile:v", "3", "-pix_fmt", "yuv422p10le", "-vendor", "apl0"]

/-- Video flags of the H.264 branch of the primary encode command. -/
def h264VideoArgs : List String :=
  ["-c:v", "libx264", "-preset", "fast", "-crf", "18", "-pix_fmt", "yuv420p",
   "-profile:v", "high", "-level", "4.1"]

/-- Audio flags used when an audio input is present. -/
def aacAudioArgs : List String :=
  ["-c:a", "aac", "-b:a", "192k", "-ar", "48000", "-ac", "2", "-shortest"]

/-- Models `stderr.slice(-500)`. -/
def tail500 (s : String) : String :=
  s.drop (s.length - 500)

/-- Oracles for the external effects of one `finalize` call: the save dialog
(`dialog`, `none` when the user cancels or the path is empty), the locator's
`spawnSync` probe, whether the primary spawn fails with an `error` event
(`spawnError`), the primary process's stderr chunks, exit code, and whether
it produced the temporary output (and with what bytes), and the remux
process's exit code and produced destination bytes. -/
structure FinEnv where
  dialog : Option String
  spawnSync : String → List String → Nat → Option Int
  spawnError : Option String
  stderrChunks : List String
  exitCode : Int
  encodeOutput : Option String
  remuxCode : Int
  remuxOutput : Option String

/-- Models the `export:finalize` handler.  `interf` is the mutation the rest
of the process may apply to the shared state while the encode subprocess is
in flight (for example `export:cancel` or a new `export:init` resetting the
globals); it is applied between the spawn of the primary process and its
close/error handler.  Returns the final state, the resolved result, and the
log of observable actions in order. -/
def finalize (fps : Nat) (hasAudio : Bool) (outputFormat : String)
    (env : FinEnv) (interf : St → St) (s0 : St) : St × OpResult × List Ev :=
  match s0.tempDir with
  | none => (s0, OpResult.error "Export not initialized", [])
  | some currentTempDir =>
      let files := listPng s0.files currentTempDir
      if files.length = 0 then
        (cleanup s0, OpResult.error "No frames were rendered. Export failed.",
         [Ev.cleanupEv])
      else
        match env.dialog with
        | none => (cleanup s0, OpResult.canceled, [Ev.cleanupEv])
        | some filePath =>
            match findFFmpeg env.spawnSync with
            | none => (cleanup s0, OpResult.error ffmpegNotFoundMsg, [Ev.cleanupEv])
            | some ffmpegPath =>
                let inputPattern := currentTempDir ++ "/frame_%06d.png"
                let audioPath := currentTempDir ++ "/audio.webm"
                let audioExists := hasAudio && diskExists s0.files audioPath
                let tempOutput := currentTempDir ++ "/output_temp." ++
                  (if outputFormat = "prores" then "mov" else "mp4")
                let ffmpegArgs :=
                  ["-y", "-framerate", toString fps, "-i", inputPattern]
                  ++ (if audioExists then ["-i", audioPath] else [])
                  ++ (if outputFormat = "prores" then proresVideoArgs else h264VideoArgs)
                  ++ (if audioExists then aacAudioArgs else ["-an"])
                  ++ [tempOutput]
                match env.spawnError with
                | some emsg =>
                    let s1 := interf s0
                    (cleanup s1, OpResult.error ("Failed to run FFmpeg: " ++ emsg),
                     [Ev.spawnEv ffmpegPath ffmpegArgs, Ev.cleanupEv])
                | none =>
                    let progress := (runProgressStrs env.stderrChunks).map
                      (fun str => Ev.progressEv (parseNat str) files.length)
                    let baseLog := Ev.spawnEv ffmpegPath ffmpegArgs :: progress
                    let f1 :=
                      match env.encodeOutput with
                      | some c => (tempOutput, c) :: s0.files
                      | none => s0.files
                    let s2 := interf { s0 with files := f1 }
                    if env.exitCode = 0 ∧ diskExists s2.files tempOutput then
                      if outputFormat ≠ "prores" then
                        let fastStartArgs :=
                          ["-y", "-i", tempOutput, "-c", "copy",
                           "-movflags", "+faststart", filePath]
                        let f2 :=
                          match env.remuxOutput with
                          | some c => (filePath, c) :: s2.files
                          | none => s2.files
                        let s4 := { s2 with files := diskRemove f2 tempOutput }
                        if env.remuxCode = 0 ∧ diskExists s4.files filePath then
                          (cleanup s4,
                           OpResult.success filePath (diskSize s4.files filePath),
                           baseLog ++ [Ev.spawnEv ffmpegPath fastStartArgs, Ev.cleanupEv])
                        else
                          (cleanup s4,
                           OpResult.error ("Faststart failed (code " ++
                             toString env.remuxCode ++ ")"),
                           baseLog ++ [Ev.spawnEv ffmpegPath fastStartArgs, Ev.cleanupEv])
                      else
                        let s3 := { s2 with files := diskRename s2.files tempOutput filePath }
                        (cleanup s3,
                         OpResult.success filePath (diskSize s3.files filePath),
                         baseLog ++ [Ev.cleanupEv])
                    else
                      (cleanup s2,
                       OpResult.error ("FFmpeg failed (code " ++ toString env.exitCode ++
                         ").\n\nDetails:\n" ++ tail500 (String.join env.stderrChunks)),
                       baseLog ++ [Ev.cleanupEv])

/-- A mutation of only the two module-level globals (what `export:cancel`
and `export:init` write to the shared session variables). -/
def setGlobals (g : Option String) (c : Nat) : St → St :=
  fun s => { s with tempDir := g, frameCount := c }

/-- Boolean check that a list of naturals is strictly increasing. -/
def strictlyIncreasing : List Nat → Bool
  | [] => true
  | [_] => true
  | a :: b :: r => a < b && strictlyIncreasing (b :: r)

/-- Boolean check that no two consecutive elements are equal. -/
def noConsecDup : List String → Bool
  | [] => true
  | [_] => true
  | a :: b :: r => a != b && noConsecDup (b :: r)

/-- Sublist-of-characters search, used to state that an error message
contains a given phrase. -/
def hasSub (needle : List Char) : List Char → Bool
  | [] => needle.isEmpty
  | c :: cs => needle.isPrefixOf (c :: cs) || hasSub needle cs

/-- True when `needle` occurs contiguously inside `hay`. -/
def containsStr (needle hay : String) : Bool :=
  hasSub needle.data hay.data

/-- A concrete active session with one saved frame, used to instantiate the
theorems below at an explicit input. -/
def wSt : St :=
  { tempDir := some "/tmp/w", frameCount := 1,
    files := [("/tmp/w/frame_000000.png", "IMG")], dirs := ["/tmp/w"] }

/-- A concrete active session whose workspace holds no frame files. -/
def emptySt : St :=
  { tempDir := some "/tmp/w", frameCount := 0, files := [], dirs := ["/tmp/w"] }

/-- A concrete state with no active session. -/
def inactiveSt : St :=
  { tempDir := none, frameCount := 3, files := [("/x/a.png", "A")], dirs := ["/x"] }

/-- A locator oracle whose every probe exits with status 0. -/
def okProbe : String → List String → Nat → Option Int :=
  fun _ _ _ => some 0

/-- A locator oracle whose every probe throws. -/
def noProbe : String → List String → Nat → Option Int :=
  fun _ _ _ => none

/-- A concrete environment for a fully successful mp4 export. -/
def wEnv : FinEnv :=
  { dialog := some "/out/v.mp4", spawnSync := okProbe, spawnError := none,
    stderrChunks := ["frame= 1"], exitCode := 0, encodeOutput := some "VID",
    remuxCode := 0, remuxOutput := some "FVID" }

/-- The successful environment with an exhausted encoder locator. -/
def wEnvNoFF : FinEnv :=
  { wEnv with spawnSync := noProbe }

/-- A concrete environment for a fully successful prores export. -/
def wEnvProres : FinEnv :=
  { wEnv with dialog := some "/out/v.mov" }

/-- The successful environment with a failing remux subprocess. -/
def wEnvRemuxFail : FinEnv :=
  { wEnv with remuxCode := 1, remuxOutput := none }

/-- A path present in an association-list file system is reported to exist. -/
theorem diskExists_of_mem {fs : Files} {p c : String} (h : (p, c) ∈ fs) :
    diskExists fs p = true := by
  unfold diskExists
  rw [List.any_eq_true]
  exact ⟨(p, c), h, by simp⟩

/-- C2: with an active session at cumulative count C, a batch of N payloads
whose writes all succeed puts frames C..C+N-1 on disk under their
zero-padded sequential filenames and resolves with frameNumber C+N. -/
theorem C2_saveFrameBatch_success (frames : List String) (writeOk : Nat → Bool)
    (s0 : St) (d : String)
    (hTd : s0.tempDir = some d)
    (hNE : frames ≠ [])
    (hOk : ∀ i, i < frames.length → writeOk i = true) :
    (saveFrameBatch frames writeOk s0).2 =
      OpResult.frameNumber (s0.frameCount + frames.length) ∧
    (saveFrameBatch frames writeOk s0).1.frameCount =
      s0.frameCount + frames.length ∧
    ∀ i, i < frames.length →
      diskExists (saveFrameBatch frames writeOk s0).1.files
        (framePath d (s0.frameCount + i)) = true := by
  have hfil : (List.range frames.length).filter writeOk = List.range frames.length :=
    List.filter_eq_self.mpr (fun i hi => hOk i (List.mem_range.mp hi))
  have hall : (List.range frames.length).all writeOk = true :=
    List.all_eq_true.mpr (fun i hi => hOk i (List.mem_range.mp hi))
  simp only [saveFrameBatch, hTd, hfil, hall, if_true]
  refine ⟨trivial, trivial, ?_⟩
  intro i hi
  exact diskExists_of_mem
    (List.mem_append_left _
      (List.mem_map.mpr ⟨i, List.mem_range.mpr hi, rfl⟩))

/-- Closed instance of C2: a two-frame batch after cumulative count 1. -/
theorem C2_witness :
    (saveFrameBatch ["data:image/png;base64,AA", "BB"] (fun _ => true) wSt).2 =
      OpResult.frameNumber 3 ∧
    diskExists (saveFrameBatch ["data:image/png;base64,AA", "BB"]
        (fun _ => true) wSt).1.files (framePath "/tmp/w" 1) = true ∧
    diskExists (saveFrameBatch ["data:image/png;base64,AA", "BB"]
        (fun _ => true) wSt).1.files (framePath "/tmp/w" 2) = true := by
  have h := C2_saveFrameBatch_success ["data:image/png;base64,AA", "BB"]
    (fun _ => true) wSt "/tmp/w" rfl (by decide) (fun i _ => rfl)
  exact ⟨h.1, h.2.2 0 (by decide), h.2.2 1 (by decide)⟩

/-- C9: when some write of the batch fails, the handler's promise rejects,
the cumulative frame count is unchanged, and yet every frame whose own write
succeeded is on disk. -/
theorem C9_saveFrameBatch_failure (frames : List String) (writeOk : Nat → Bool)
    (s0 : St) (d : String) (j : Nat)
    (hTd : s0.tempDir = some d)
    (hj : j < frames.length) (hjf : writeOk j = false) :
    (saveFrameBatch frames writeOk s0).2 = OpResult.thrown "frame write failed" ∧
    (saveFrameBatch frames writeOk s0).1.frameCount = s0.frameCount ∧
    ∀ i, i < frames.length → writeOk i = true →
      diskExists (saveFrameBatch frames writeOk s0).1.files
        (framePath d (s0.frameCount + i)) = true := by
  have hall : (List.range frames.length).all writeOk = false := by
    rw [Bool.eq_false_iff]
    intro habs
    have hji := List.all_eq_true.mp habs j (List.mem_range.mpr hj)
    rw [hjf] at hji
    exact Bool.false_ne_true hji
  simp only [saveFrameBatch, hTd, hall, Bool.false_eq_true, if_false]
  refine ⟨trivial, trivial, ?_⟩
  intro i hi hwi
  exact diskExists_of_mem
    (List.mem_append_left _
      (List.mem_map.mpr
        ⟨i, List.mem_filter.mpr ⟨List.mem_range.mpr hi, hwi⟩, rfl⟩))

/-- Closed instance of C9: second write fails, counter stays at 1, first
frame of the batch is on disk. -/
theorem C9_witness :
    (saveFrameBatch ["AA", "BB"] (fun i => i == 0) wSt).2 =
      OpResult.thrown "frame write failed" ∧
    (saveFrameBatch ["AA", "BB"] (fun i => i == 0) wSt).1.frameCount = 1 ∧
    diskExists (saveFrameBatch ["AA", "BB"] (fun i => i == 0) wSt).1.files
      (framePath "/tmp/w" 1) = true := by
  have h := C9_saveFrameBatch_failure ["AA", "BB"] (fun i => i == 0) wSt
    "/tmp/w" 1 rfl (by decide) rfl
  exact ⟨h.1, h.2.1, h.2.2 0 (by decide) rfl⟩

/-- C8 counterexample: with no active session, `export:cancel` resolves with
a canceled result, not with the not-initialized error the claim requires of
every operation. -/
theorem C8_counterexample :
    (cancel inactiveSt).2 = OpResult.canceled ∧
    ((cancel inactiveSt).2 == OpResult.error "Export not initialized") = false := by
  decide

/-- C8 amended: with no active session, saveFrameBatch, saveFrame, saveAudio
and finalize all fail with the not-initialized condition without performing
their effect, while cancel instead resolves canceled, its cleanup being a
no-op on the file system. -/
theorem C8_amended_not_initialized (s : St) (hTd : s.tempDir = none)
    (frames : List String) (writeOk : Nat → Bool) (dataUrl buf : String)
    (fps : Nat) (hasAudio : Bool) (fmt : String) (env : FinEnv)
    (interf : St → St) :
    saveFrameBatch frames writeOk s = (s, OpResult.error "Export not initialized") ∧
    saveFrame dataUrl s = (s, OpResult.error "Export not initialized") ∧
    saveAudio buf s = (s, OpResult.error "Export not initialized") ∧
    finalize fps hasAudio fmt env interf s =
      (s, OpResult.error "Export not initialized", []) ∧
    (cancel s).2 = OpResult.canceled ∧
    (cancel s).1.files = s.files ∧
    (cancel s).1.dirs = s.dirs := by
  refine ⟨?_, ?_, ?_, ?_, rfl, ?_, ?_⟩ <;>
    simp [saveFrameBatch, saveFrame, saveAudio, finalize, cancel, cleanup, hTd]

/-- Closed instance of the amended C8 at an explicit inactive state. -/
theorem C8_witness :
    saveFrameBatch ["AA"] (fun _ => true) inactiveSt =
      (inactiveSt, OpResult.error "Export not initialized") ∧
    saveFrame "AA" inactiveSt = (inactiveSt, OpResult.error "Export not initialized") ∧
    saveAudio "AU" inactiveSt = (inactiveSt, OpResult.error "Export not initialized") ∧
    finalize 30 false "mp4" wEnv id inactiveSt =
      (inactiveSt, OpResult.error "Export not initialized", []) ∧
    (cancel inactiveSt).2 = OpResult.canceled ∧
    (cancel inactiveSt).1.files = inactiveSt.files ∧
    (cancel inactiveSt).1.dirs = inactiveSt.dirs :=
  C8_amended_not_initialized inactiveSt rfl ["AA"] (fun _ => true) "AA" "AU"
    30 false "mp4" wEnv id

/-- C3: finalize on an active session whose workspace holds zero frame files
fails with the no-frames error, and afterwards the session is inactive and
the workspace directory and its contents are gone. -/
theorem C3_finalize_no_frames (fps : Nat) (hasAudio : Bool) (fmt : String)
    (env : FinEnv) (interf : St → St) (s0 : St) (d : String)
    (hTd : s0.tempDir = some d)
    (hDir : s0.dirs.contains d = true)
    (hEmpty : listPng s0.files d = []) :
    (finalize fps hasAudio fmt env interf s0).2.1 =
      OpResult.error "No frames were rendered. Export failed." ∧
    (finalize fps hasAudio fmt env interf s0).1.tempDir = none ∧
    (finalize fps hasAudio fmt env interf s0).1.dirs.contains d = false ∧
    (finalize fps hasAudio fmt env interf s0).1.files.all
      (fun e => !isUnder d e.1) = true := by
  simp only [finalize, hTd, hEmpty, List.length_nil, if_pos]
  refine ⟨trivial, rfl, ?_, ?_⟩
  · simp only [cleanup, hTd, hDir, if_pos]
    rw [Bool.eq_false_iff]
    intro habs
    have hmem : d ∈ s0.dirs.filter (fun x => x != d) := by
      simpa using habs
    have := List.of_mem_filter hmem
    simp at this
  · simp only [cleanup, hTd, hDir, if_pos]
    rw [List.all_eq_true]
    intro e he
    have h2 := List.of_mem_filter (p := fun (x : String × String) => !isUnder d x.1) he
    simpa using h2

/-- Closed instance of C3 at an explicit empty workspace. -/
theorem C3_witness :
    (finalize 30 false "mp4" wEnv id emptySt).2.1 =
      OpResult.error "No frames were rendered. Export failed." ∧
    (finalize 30 false "mp4" wEnv id emptySt).1.tempDir = none ∧
    (finalize 30 false "mp4" wEnv id emptySt).1.dirs.contains "/tmp/w" = false ∧
    (finalize 30 false "mp4" wEnv id emptySt).1.files.all
      (fun e => !isUnder "/tmp/w" e.1) = true :=
  C3_finalize_no_frames 30 false "mp4" wEnv id emptySt "/tmp/w" rfl rfl rfl

/-- The locator loop returns none exactly when every candidate's probe
fails to exit with status 0. -/
theorem findFFmpegAux_none_iff
    (spawnSync : String → List String → Nat → Option Int) (l : List String) :
    findFFmpegAux spawnSync l = none ↔
      ∀ q ∈ l, spawnSync q ["-version"] 5000 ≠ some 0 := by
  induction l with
  | nil => simp [findFFmpegAux]
  | cons a rest ih =>
      by_cases ha : spawnSync a ["-version"] 5000 = some 0
      · simp [findFFmpegAux, ha]
      · simp [findFFmpegAux, ha, ih]

/-- The locator loop's successful result is its first candidate whose probe
exits with status 0. -/
theorem findFFmpegAux_some
    (spawnSync : String → List String → Nat → Option Int) (l : List String)
    (p : String) (h : findFFmpegAux spawnSync l = some p) :
    spawnSync p ["-version"] 5000 = some 0 ∧
    ∃ pre post, l = pre ++ p :: post ∧
      ∀ q ∈ pre, spawnSync q ["-version"] 5000 ≠ some 0 := by
  induction l with
  | nil => cases h
  | cons a rest ih =>
      by_cases ha : spawnSync a ["-version"] 5000 = some 0
      · simp only [findFFmpegAux, if_pos ha, Option.some.injEq] at h
        subst h
        exact ⟨ha, [], rest, rfl, by simp⟩
      · simp only [findFFmpegAux, if_neg ha] at h
        obtain ⟨hp, pre, post, hl, hpre⟩ := ih h
        refine ⟨hp, a :: pre, post, by rw [hl]; rfl, ?_⟩
        intro q hq
        rcases List.mem_cons.mp hq with h1 | h2
        · rw [h1]; exact ha
        · exact hpre q h2

/-- C7: the encoder locator probes the fixed ordered candidate list with a
5000ms-bounded `-version` check and returns the first success; it is
exhausted exactly when every candidate fails, and in that case finalize
resolves with the installation-guidance error after exactly one cleanup. -/
theorem C7_encoder_locator (fps : Nat) (hasAudio : Bool) (fmt : String)
    (env : FinEnv) (interf : St → St) (s0 : St) (d : String)
    (hTd : s0.tempDir = some d)
    (hNE : listPng s0.files d ≠ [])
    (hDlg : env.dialog ≠ none) :
    (∀ p, findFFmpeg env.spawnSync = some p →
        env.spawnSync p ["-version"] 5000 = some 0 ∧
        ∃ pre post, possiblePaths = pre ++ p :: post ∧
          ∀ q ∈ pre, env.spawnSync q ["-version"] 5000 ≠ some 0) ∧
    (findFFmpeg env.spawnSync = none ↔
        ∀ q ∈ possiblePaths, env.spawnSync q ["-version"] 5000 ≠ some 0) ∧
    (findFFmpeg env.spawnSync = none →
        (finalize fps hasAudio fmt env interf s0).2.1 =
          OpResult.error ffmpegNotFoundMsg ∧
        containsStr "install" ffmpegNotFoundMsg = true ∧
        countCleanups (finalize fps hasAudio fmt env interf s0).2.2 = 1) := by
  refine ⟨fun p hp => findFFmpegAux_some env.spawnSync possiblePaths p hp,
          findFFmpegAux_none_iff env.spawnSync possiblePaths, ?_⟩
  intro hnone
  obtain ⟨fp, hfp⟩ := Option.ne_none_iff_exists'.mp hDlg
  have hlen : ¬ (listPng s0.files d).length = 0 :=
    fun h => hNE (List.length_eq_zero.mp h)
  simp only [finalize, hTd, hfp, hnone, if_neg hlen]
  exact ⟨trivial, by decide, rfl⟩

/-- Closed instance of C7 with an oracle whose every probe throws. -/
theorem C7_witness :
    (finalize 30 false "mp4" wEnvNoFF id wSt).2.1 =
      OpResult.error ffmpegNotFoundMsg ∧
    containsStr "install" ffmpegNotFoundMsg = true ∧
    countCleanups (finalize 30 false "mp4" wEnvNoFF id wSt).2.2 = 1 := by
  have h := C7_encoder_locator 30 false "mp4" wEnvNoFF id wSt "/tmp/w"
    rfl (by decide) (by decide)
  exact h.2.2 rfl

/-- Progress events contribute no cleanup entries to the log. -/
theorem filter_cleanup_progress (l : List String) (t : Nat) :
    (l.map (fun str => Ev.progressEv (parseNat str) t)).filter isCleanupEv = [] := by
  induction l with
  | nil => rfl
  | cons a l ih => simp [List.filter_cons, isCleanupEv, ih]

/-- C1: on an active session, every terminal outcome of finalize (success in
either mode, encode failure, remux failure, spawn failure, encoder not
found, zero frames, dialog cancellation) records exactly one cleanup call
before the result is resolved, whatever the environment and whatever
mutation hits the globals while the subprocess runs. -/
theorem C1_finalize_cleanup_exactly_once (fps : Nat) (hasAudio : Bool)
    (fmt : String) (env : FinEnv) (interf : St → St) (s0 : St) (d : String)
    (hTd : s0.tempDir = some d) :
    countCleanups (finalize fps hasAudio fmt env interf s0).2.2 = 1 := by
  simp only [finalize, hTd]
  repeat' split
  all_goals
    simp [countCleanups, List.filter_append, List.filter_cons, isCleanupEv,
          filter_cleanup_progress]

/-- Closed instance of C1 on a successful mp4 export. -/
theorem C1_witness :
    countCleanups (finalize 30 false "mp4" wEnv id wSt).2.2 = 1 :=
  C1_finalize_cleanup_exactly_once 30 false "mp4" wEnv id wSt "/tmp/w" rfl

/-- Progress events contribute no spawn entries to the log. -/
theorem filter_spawn_progress (l : List String) (t : Nat) :
    (l.map (fun str => Ev.progressEv (parseNat str) t)).filter isSpawnEv = [] := by
  induction l with
  | nil => rfl
  | cons a l ih => simp [List.filter_cons, isSpawnEv, ih]

/-- Reading a path whose entry heads the file list yields that entry. -/
theorem diskRead_head (fs : Files) (p c : String) :
    diskRead ((p, c) :: fs) p = some c := by
  unfold diskRead
  rw [List.find?_cons_of_pos _ (by simp)]
  rfl

/-- Renaming a path whose entry heads the file list moves its bytes. -/
theorem diskRename_head (fs : Files) (src dst c : String) :
    diskRename ((src, c) :: fs) src dst =
      (dst, c) :: ((src, c) :: fs).filter (fun e => e.1 != src && e.1 != dst) := by
  unfold diskRename
  rw [diskRead_head]

/-- The reported size of a freshly written file is its byte length. -/
theorem diskSize_head (fs : Files) (p c : String) :
    diskSize ((p, c) :: fs) p = c.length := by
  unfold diskSize
  rw [diskRead_head]

/-- A path is absent exactly when no entry carries it. -/
theorem diskExists_false_iff {fs : Files} {p : String} :
    diskExists fs p = false ↔ ∀ e ∈ fs, e.1 ≠ p := by
  unfold diskExists
  rw [Bool.eq_false_iff]
  constructor
  · intro h e hmem hep
    exact h (List.any_eq_true.mpr ⟨e, hmem, by simp [hep]⟩)
  · intro h habs
    obtain ⟨e, hmem, hbeq⟩ := List.any_eq_true.mp habs
    exact h e hmem (by simpa using hbeq)

/-- Filtering the file list cannot make an absent path appear. -/
theorem diskExists_filter_false (fs : Files) (p : String)
    (q : String × String → Bool)
    (h : diskExists fs p = false) : diskExists (fs.filter q) p = false := by
  rw [diskExists_false_iff] at h ⊢
  intro e hmem
  exact h e (List.mem_filter.mp hmem).1

/-- Unlinking a path removes every trace of it. -/
theorem diskExists_diskRemove_self (fs : Files) (p : String) :
    diskExists (diskRemove fs p) p = false := by
  rw [diskExists_false_iff]
  intro e hmem
  have h2 := (List.mem_filter.mp hmem).2
  simpa using h2

/-- The temporary output path always lies inside the workspace directory. -/
theorem isUnder_tempOutput (d ext : String) :
    isUnder d ((d ++ "/output_temp.") ++ ext) = true := by
  unfold isUnder
  rw [List.isPrefixOf_iff_prefix]
  simp only [String.data_append, List.append_assoc]
  rw [List.prefix_append_right_inj]
  rw [List.cons_append, List.cons_prefix_cons]
  exact ⟨rfl, List.nil_prefix⟩

/-- Cleanup of an active session whose workspace directory exists filters
out exactly the files under the workspace. -/
theorem cleanup_files_of_contains (s : St) (d : String)
    (hTd : s.tempDir = some d) (hdir : d ∈ s.dirs) :
    (cleanup s).files = s.files.filter (fun e => !isUnder d e.1) := by
  simp [cleanup, hTd, hdir]

/-- Cleanup leaves the files alone when the workspace directory is absent. -/
theorem cleanup_files_of_not_contains (s : St) (d : String)
    (hTd : s.tempDir = some d) (hdir : d ∉ s.dirs) :
    (cleanup s).files = s.files := by
  simp [cleanup, hTd, hdir]

/-- Cleanup with no active workspace leaves the files alone. -/
theorem cleanup_files_of_none (s : St) (hTd : s.tempDir = none) :
    (cleanup s).files = s.files := by
  simp [cleanup, hTd]

/-- A file written outside the workspace survives cleanup with its bytes. -/
theorem diskRead_cleanup_head (s : St) (d fp c : String) (rest : Files)
    (hTd : s.tempDir = some d)
    (hfiles : s.files = (fp, c) :: rest)
    (hFp : isUnder d fp = false) :
    diskRead (cleanup s).files fp = some c := by
  by_cases hdir : d ∈ s.dirs
  · rw [cleanup_files_of_contains s d hTd hdir, hfiles]
    rw [List.filter_cons_of_pos (by simp [hFp])]
    exact diskRead_head _ _ _
  · rw [cleanup_files_of_not_contains s d hTd hdir, hfiles]
    exact diskRead_head _ _ _

/-- Cleanup cannot make an absent path appear. -/
theorem diskExists_cleanup_false (s : St) (p : String)
    (h : diskExists s.files p = false) :
    diskExists (cleanup s).files p = false := by
  cases hTd : s.tempDir with
  | none => rw [cleanup_files_of_none s hTd]; exact h
  | some d =>
      by_cases hdir : d ∈ s.dirs
      · rw [cleanup_files_of_contains s d hTd hdir]
        exact diskExists_filter_false _ _ _ h
      · rw [cleanup_files_of_not_contains s d hTd hdir]
        exact h

/-- C4: a prores finalize whose primary encode succeeds spawns exactly one
subprocess, and the destination file carries exactly the bytes the primary
encode wrote to the temporary output, which the rename leaves absent. -/
theorem C4_prores_single_pass (fps : Nat) (hasAudio : Bool) (env : FinEnv)
    (s0 : St) (d fp c pth : String)
    (hTd : s0.tempDir = some d)
    (hNE : listPng s0.files d ≠ [])
    (hDlg : env.dialog = some fp)
    (hFF : findFFmpeg env.spawnSync = some pth)
    (hSE : env.spawnError = none)
    (hEC : env.exitCode = 0)
    (hOut : env.encodeOutput = some c)
    (hFp : isUnder d fp = false) :
    countSpawns (finalize fps hasAudio "prores" env id s0).2.2 = 1 ∧
    (finalize fps hasAudio "prores" env id s0).2.1 =
      OpResult.success fp c.length ∧
    diskRead (finalize fps hasAudio "prores" env id s0).1.files fp = some c ∧
    diskExists (finalize fps hasAudio "prores" env id s0).1.files
      ((d ++ "/output_temp.") ++ "mov") = false := by
  have hlen : ¬ (listPng s0.files d).length = 0 :=
    fun h => hNE (List.length_eq_zero.mp h)
  have hfp_ne : fp ≠ (d ++ "/output_temp.") ++ "mov" := by
    intro he
    rw [he, isUnder_tempOutput] at hFp
    simp at hFp
  simp only [finalize, hTd, hDlg, hFF, hSE, hOut, hEC, if_neg hlen, id_eq]
  rw [if_pos (by simp [diskExists])]
  rw [if_neg (by simp : ¬ (("prores" : String) ≠ "prores"))]
  rw [diskRename_head]
  rw [List.filter_cons_of_neg (by simp)]
  refine ⟨?_, ?_, ?_, ?_⟩
  · simp [countSpawns, List.filter_append, List.filter_cons, isSpawnEv,
          filter_spawn_progress]
  · rw [diskSize_head]
  · exact diskRead_cleanup_head _ d fp c _ rfl rfl hFp
  · apply diskExists_cleanup_false
    rw [diskExists_false_iff]
    intro e hmem
    rcases List.mem_cons.mp hmem with h1 | h2
    · rw [h1]
      exact hfp_ne
    · have hq := (List.mem_filter.mp h2).2
      simp at hq
      exact hq.1

/-- Closed instance of C4 on a successful prores export. -/
theorem C4_witness :
    countSpawns (finalize 30 false "prores" wEnvProres id wSt).2.2 = 1 ∧
    (finalize 30 false "prores" wEnvProres id wSt).2.1 =
      OpResult.success "/out/v.mov" 3 ∧
    diskRead (finalize 30 false "prores" wEnvProres id wSt).1.files "/out/v.mov" =
      some "VID" ∧
    diskExists (finalize 30 false "prores" wEnvProres id wSt).1.files
      (("/tmp/w" ++ "/output_temp.") ++ "mov") = false :=
  C4_prores_single_pass 30 false wEnvProres wSt "/tmp/w" "/out/v.mov" "VID"
    "/opt/homebrew/bin/ffmpeg" rfl (by decide) rfl rfl rfl rfl rfl (by decide)

/-- Both branches of a conditional whose states lack a path lack it too. -/
theorem diskExists_ite_false {c : Prop} [Decidable c]
    (x y : St × OpResult × List Ev) (p : String)
    (hx : diskExists x.1.files p = false) (hy : diskExists y.1.files p = false) :
    diskExists (if c then x else y).1.files p = false := by
  split
  · exact hx
  · exact hy

/-- C5: an mp4 finalize that reaches the remux stage leaves no temporary
output file behind, whatever the remux exit code and output, and whatever
values the globals were mutated to while the encode ran. -/
theorem C5_remux_deletes_temp (fps : Nat) (hasAudio : Bool) (env : FinEnv)
    (s0 : St) (d fp c pth : String) (g : Option String) (cN : Nat)
    (hTd : s0.tempDir = some d)
    (hNE : listPng s0.files d ≠ [])
    (hDlg : env.dialog = some fp)
    (hFF : findFFmpeg env.spawnSync = some pth)
    (hSE : env.spawnError = none)
    (hEC : env.exitCode = 0)
    (hOut : env.encodeOutput = some c) :
    diskExists (finalize fps hasAudio "mp4" env (setGlobals g cN) s0).1.files
      ((d ++ "/output_temp.") ++ "mp4") = false := by
  have hlen : ¬ (listPng s0.files d).length = 0 :=
    fun h => hNE (List.length_eq_zero.mp h)
  simp only [finalize, hTd, hDlg, hFF, hSE, hOut, hEC, if_neg hlen, setGlobals]
  rw [if_pos (by simp [diskExists])]
  rw [if_pos (by simp : (("mp4" : String) ≠ "prores"))]
  apply diskExists_ite_false
  · apply diskExists_cleanup_false
    exact diskExists_diskRemove_self _ _
  · apply diskExists_cleanup_false
    exact diskExists_diskRemove_self _ _

/-- Closed instance of C5: remux success and remux failure both leave no
temporary output, even when the globals were reset mid-flight. -/
theorem C5_witness :
    diskExists (finalize 30 false "mp4" wEnv (setGlobals none 0) wSt).1.files
      (("/tmp/w" ++ "/output_temp.") ++ "mp4") = false ∧
    diskExists (finalize 30 false "mp4" wEnvRemuxFail (setGlobals none 0) wSt).1.files
      (("/tmp/w" ++ "/output_temp.") ++ "mp4") = false :=
  ⟨C5_remux_deletes_temp 30 false wEnv wSt "/tmp/w" "/out/v.mp4" "VID"
      "/opt/homebrew/bin/ffmpeg" none 0 rfl (by decide) rfl rfl rfl rfl rfl,
   C5_remux_deletes_temp 30 false wEnvRemuxFail wSt "/tmp/w" "/out/v.mp4" "VID"
      "/opt/homebrew/bin/ffmpeg" none 0 rfl (by decide) rfl rfl rfl rfl rfl⟩

/-- C6 counterexample: the stderr stream `"frame= 2"` then `" frame= 1"`
with one frame file makes the handler emit frame 2 (exceeding total 1) and
then frame 1, so the emitted frames are neither strictly increasing nor
bounded by total. -/
theorem C6_counterexample :
    runProgress ["frame= 2", " frame= 1"] 1 = [(2, 1), (1, 1)] ∧
    strictlyIncreasing ((runProgress ["frame= 2", " frame= 1"] 1).map Prod.fst)
      = false ∧
    (runProgress ["frame= 2", " frame= 1"] 1).all
      (fun e => decide (e.1 ≤ e.2)) = false := by
  decide

/-- Appending an element different from the last keeps a list free of
consecutive duplicates. -/
theorem noConsecDup_append_last (l : List String) (s : String)
    (h1 : noConsecDup l = true)
    (h2 : ∀ t, l.getLast? = some t → t ≠ s) :
    noConsecDup (l ++ [s]) = true := by
  induction l with
  | nil => rfl
  | cons a l ih =>
      cases l with
      | nil =>
          have hne : a ≠ s := h2 a rfl
          simp [noConsecDup, hne]
      | cons b r =>
          simp only [noConsecDup] at h1
          rw [Bool.and_eq_true] at h1
          have h2b : ∀ t, (b :: r).getLast? = some t → t ≠ s := by
            intro t ht
            exact h2 t (by rw [List.getLast?_cons_cons]; exact ht)
          have hrec := ih h1.2 h2b
          rw [List.cons_append]
          simp only [noConsecDup, List.cons_append]
          rw [Bool.and_eq_true]
          exact ⟨h1.1, by rw [List.cons_append] at hrec; exact hrec⟩

/-- Invariant of the stderr progress scanner: no consecutive duplicate
emissions and `lastProgress` tracks the last emitted digit string. -/
def PInv (acc : PState) : Prop :=
  noConsecDup acc.emitted = true ∧
  (acc.emitted = [] ∨ acc.emitted.getLast? = some acc.lastProgress)

/-- One data-callback invocation preserves the scanner invariant. -/
theorem stepChunk_PInv (acc : PState) (chunk : String) (h : PInv acc) :
    PInv (stepChunk acc chunk) := by
  simp only [stepChunk]
  split
  · exact h
  · rename_i last hm
    by_cases hne : last ≠ acc.lastProgress
    · rw [if_pos hne]
      constructor
      · rcases h.2 with he | hl
        · rw [he]
          rfl
        · apply noConsecDup_append_last _ _ h.1
          intro t ht
          rw [hl] at ht
          injection ht with ht
          rw [ht] at hne
          exact fun hts => hne hts.symm
      · right
        exact List.getLast?_concat _
    · rw [if_neg hne]
      exact h

/-- The scanner invariant holds after any sequence of stderr chunks. -/
theorem foldl_stepChunk_PInv (chunks : List String) (acc : PState)
    (h : PInv acc) : PInv (chunks.foldl stepChunk acc) := by
  induction chunks generalizing acc with
  | nil => exact h
  | cons c cs ih => exact ih _ (stepChunk_PInv acc c h)

/-- C6 amended: within one finalize call no two consecutive progress events
arise from the same matched digit string (deduplication against the last
reported value), and every event carries the frame file count as its total;
strict increase of the frame values and the bound frame ≤ total do not hold
for arbitrary diagnostic input. -/
theorem C6_progress_dedup (chunks : List String) (total : Nat) :
    noConsecDup (runProgressStrs chunks) = true ∧
    (runProgress chunks total).all (fun e => e.2 == total) = true := by
  constructor
  · exact (foldl_stepChunk_PInv chunks ⟨"", "", []⟩ ⟨rfl, Or.inl rfl⟩).1
  · unfold runProgress
    rw [List.all_eq_true]
    intro e he
    obtain ⟨str, hstr, heq⟩ := List.mem_map.mp he
    rw [← heq]
    simp

/-- Branches agreeing on result and log agree under any condition. -/
theorem snd_ite_congr {c : Prop} [Decidable c]
    {x y x' y' : St × OpResult × List Ev}
    (hx : x.2 = x'.2) (hy : y.2 = y'.2) :
    (if c then x else y).2 = (if c then x' else y').2 := by
  by_cases h : c
  · rw [if_pos h, if_pos h]
    exact hx
  · rw [if_neg h, if_neg h]
    exact hy

/-- C10: finalize captures the workspace path once at entry and derives all
its file-system paths from that captured value, so its resolved result and
its whole observable log are unchanged when the globals `tempDir` and
`frameCount` are mutated to arbitrary values while the encode runs. -/
theorem C10_finalize_ignores_global_mutation (fps : Nat) (hasAudio : Bool)
    (fmt : String) (env : FinEnv) (s0 : St)
    (g1 g2 : Option String) (c1 c2 : Nat) :
    (finalize fps hasAudio fmt env (setGlobals g1 c1) s0).2 =
      (finalize fps hasAudio fmt env (setGlobals g2 c2) s0).2 := by
  simp only [finalize, setGlobals]
  split
  · rfl
  next d heq =>
    by_cases hlen : (listPng s0.files d).length = 0
    · rw [if_pos hlen, if_pos hlen]
    · rw [if_neg hlen, if_neg hlen]
      split
      · rfl
      next fp hd =>
        split
        · rfl
        next pth hff =>
          split
          next m hse => rfl
          · apply snd_ite_congr
            · apply snd_ite_congr
              · apply snd_ite_congr
                · rfl
                · rfl
              · rfl
            · rfl

end MainJS
